import Mathlib

/-!
# Verification of the risc0 receipt module (`risc0/zkvm/src/receipt.rs`)

A shallow embedding of the receipt data model and of the verification
protocol of `receipt.rs`: the exit-code codec, metadata decoding out of a
proof's public-output buffer, segment receipt verification (hash-suite
lookup and the control-ID allow-list check), the image-ID computation, and
the session-level continuation-stitching verifier.

External collaborators (the SHA-256 compression function and byte hasher,
the zero-knowledge proof verifier, the layout-directed buffer reads, the
published control-ID lists) are modelled as parameters: the theorems hold
for every instantiation of them, which matches the source treating them as
opaque black boxes.

Machine integers `u32` are modelled as `Nat`; no arithmetic in this module
can overflow a `u32` (the only arithmetic is a checked subtraction), so no
explicit `% 2^32` is needed.
-/

set_option autoImplicit false

namespace Risc0

/-- A hash digest: 8 words of 32 bits (`risc0_zkp::core::digest::Digest`). -/
abbrev Digest : Type := Fin 8 → Nat

/-- The all-zero digest. -/
def Digest.zero : Digest := fun _ => 0

/-- The word view of a digest (`Digest::as_words`). -/
def Digest.as_words (d : Digest) : List Nat := (List.finRange 8).map d

/-- `Digest::try_from(Vec<u8>)`: 32 bytes assemble into 8 little-endian
words; any other length is an error. -/
def Digest.try_from (bytes : List Nat) : Option Digest :=
  if bytes.length = 32 then
    some (fun i => bytes.getD (4 * i.val) 0
      + 256 * bytes.getD (4 * i.val + 1) 0
      + 65536 * bytes.getD (4 * i.val + 2) 0
      + 16777216 * bytes.getD (4 * i.val + 3) 0)
  else
    none

/-- The fixed SHA-256 initialization vector (`SHA256_INIT`). -/
def SHA256_INIT : Digest := fun i =>
  [0x6a09e667, 0xbb67ae85, 0x3c6ef372, 0xa54ff53a,
   0x510e527f, 0x9b05688c, 0x1f83d9ab, 0x5be0cd19].getD i.val 0

/-- The external hash primitives consumed by the receipt module:
the SHA-256 two-block compression function (`sha::Impl::compress`) and the
SHA-256 byte hasher (`Sha256::digest`). Both are out of scope of the core
and treated as opaque. -/
structure HashExt : Type where
  compress : Digest → Digest → Digest → Digest
  sha256 : List Nat → Digest

/-- `WORD_SIZE` of the rv32im platform. -/
def WORD_SIZE : Nat := 4

/-- `ExitCode`: how a segment or session's execution has terminated. -/
inductive ExitCode : Type where
  | SystemSplit : ExitCode
  | SessionLimit : ExitCode
  | Paused : Nat → ExitCode
  | Halted : Nat → ExitCode
  deriving DecidableEq, Repr

/-- `VerificationError`: the closed error taxonomy of the verifier.
Errors produced by the external zero-knowledge verification algorithm
propagate unchanged; they are modelled by the opaque `External` codes. -/
inductive VerificationError : Type where
  | ReceiptFormatError : VerificationError
  | ImageVerificationError : VerificationError
  | UnexpectedExitCode : VerificationError
  | JournalDigestMismatch : VerificationError
  | InvalidHashSuite : VerificationError
  | ControlVerificationError : VerificationError
  | External : Nat → VerificationError
  deriving DecidableEq, Repr

/-- `SystemState`: the public machine state at a segment boundary. -/
structure SystemState : Type where
  pc : Nat
  merkle_root : Digest

/-- `ReceiptMetadata`: the trusted public facts about one segment. -/
structure ReceiptMetadata : Type where
  pre : SystemState
  post : SystemState
  exit_code : ExitCode
  input : Digest
  output : Digest

/-- `compute_image_id(merkle_root, pc)`: builds a second block holding `pc`
in its first word and zeros elsewhere, then compresses
`(merkle_root, block2)` starting from the SHA-256 initialization vector. -/
def compute_image_id (H : HashExt) (merkle_root : Digest) (pc : Nat) : Digest :=
  let pc_digest : Digest := fun i => if i.val = 0 then pc else 0
  H.compress SHA256_INIT merkle_root pc_digest

/-- `SystemState::compute_image_id`. -/
def SystemState.compute_image_id (H : HashExt) (s : SystemState) : Digest :=
  Risc0.compute_image_id H s.merkle_root s.pc

/-- `ReceiptMetadata::get_exit_code_pairs`: encode an `ExitCode` as the raw
`(sys_exit, user_exit)` pair. -/
def ReceiptMetadata.get_exit_code_pairs (exit_code : ExitCode) :
    Except VerificationError (Nat × Nat) :=
  match exit_code with
  | .Halted user_exit => .ok (0, user_exit)
  | .Paused user_exit => .ok (1, user_exit)
  | .SystemSplit => .ok (2, 0)
  | _ => .error .ReceiptFormatError

/-- `ReceiptMetadata::make_exit_code`: decode the raw
`(sys_exit, user_exit)` pair into an `ExitCode`. -/
def ReceiptMetadata.make_exit_code (sys_exit user_exit : Nat) :
    Except VerificationError ExitCode :=
  match sys_exit with
  | 0 => .ok (.Halted user_exit)
  | 1 => .ok (.Paused user_exit)
  | 2 => .ok .SystemSplit
  | _ => .error .ReceiptFormatError

/-- The layout-directed reads the decoder performs on a proof's
public-output region (`layout::OutBuffer` together with the fixed
`layout::LAYOUT` offsets). The layout and the tree-read primitives are
external; this records the result of each read the decoder makes:
`get_bytes`/`get_u32` reads are fallible, `get_u64` reads are total. -/
structure OutBuffer : Type where
  pre_image_bytes : Except Unit (List Nat)
  pre_pc : Except Unit Nat
  post_image_bytes : Except Unit (List Nat)
  post_pc : Except Unit Nat
  input_bytes : Except Unit (List Nat)
  output_bytes : Except Unit (List Nat)
  sys_exit : Nat
  user_exit : Nat

/-- `SystemState::decode_from_io`: read the merkle-root bytes and the pc
word, mapping every read or conversion failure to `ReceiptFormatError`. -/
def SystemState.decode_from_io (image_bytes : Except Unit (List Nat))
    (pc_read : Except Unit Nat) : Except VerificationError SystemState :=
  match image_bytes with
  | .error _ => .error .ReceiptFormatError
  | .ok bytes =>
    match pc_read with
    | .error _ => .error .ReceiptFormatError
    | .ok pc =>
      match Digest.try_from bytes with
      | none => .error .ReceiptFormatError
      | some merkle_root => .ok ⟨pc, merkle_root⟩

/-- `ReceiptMetadata::decode_from_io`: decode `pre`, `post` (adjusting the
recorded post pc down by one machine word, failing on underflow), `input`,
`output` and the exit code out of the public-output reads. -/
def ReceiptMetadata.decode_from_io (buf : OutBuffer) :
    Except VerificationError ReceiptMetadata :=
  match SystemState.decode_from_io buf.pre_image_bytes buf.pre_pc with
  | .error e => .error e
  | .ok pre =>
    match SystemState.decode_from_io buf.post_image_bytes buf.post_pc with
    | .error e => .error e
    | .ok post₀ =>
      -- The proof records the post pc as the true pc + WORD_SIZE, to avoid
      -- carry arithmetic in the rv32im circuit; undo it, checked.
      if post₀.pc < WORD_SIZE then .error .ReceiptFormatError
      else
        let post : SystemState := ⟨post₀.pc - WORD_SIZE, post₀.merkle_root⟩
        match buf.input_bytes with
        | .error _ => .error .ReceiptFormatError
        | .ok input_bytes =>
          match Digest.try_from input_bytes with
          | none => .error .ReceiptFormatError
          | some input =>
            match buf.output_bytes with
            | .error _ => .error .ReceiptFormatError
            | .ok output_bytes =>
              match Digest.try_from output_bytes with
              | none => .error .ReceiptFormatError
              | some output =>
                match ReceiptMetadata.make_exit_code buf.sys_exit buf.user_exit with
                | .error e => .error e
                | .ok exit_code => .ok ⟨pre, post, exit_code, input, output⟩

/-- `SegmentReceipt`: the seal (opaque proof payload), the segment index,
and the name of the hash suite that produced the proof. -/
structure SegmentReceipt : Type where
  «seal» : List Nat
  index : Nat
  hashfn : String

/-- `VerifierContext`: a name-keyed registry of hash suites. The hash-suite
type is opaque to this module, so it is a type parameter `HS`; the
`BTreeMap` is modelled by an association list queried with `List.lookup`. -/
structure VerifierContext (HS : Type) : Type where
  suites : List (String × HS)

/-- The `check_code` closure of `SegmentReceipt::verify_with_context`:
succeed exactly on a control-ID digest that some entry of the concatenated
Poseidon/SHA-256/Blake2b allow-lists decodes to; otherwise
`ControlVerificationError`. The published hex lists and `Digest::from_hex`
live outside this module and are parameters. -/
def check_code (from_hex : String → Digest)
    (poseidon_control_id sha256_control_id blake2b_control_id : List String)
    (_po2 : Nat) (control_id : Digest) : Except VerificationError Unit :=
  match (poseidon_control_id ++ sha256_control_id ++ blake2b_control_id).find?
      (fun x => decide (from_hex x = control_id)) with
  | some _ => .ok ()
  | none => .error .ControlVerificationError

/-- `SegmentReceipt::verify_with_context`: resolve the named hash suite
(absence is `InvalidHashSuite`), then hand the suite, the raw seal and the
control-ID check to the external zero-knowledge verifier `zk_verify`
(`risc0_zkp::verify::verify` applied to the fixed circuit). -/
def SegmentReceipt.verify_with_context {HS : Type}
    (zk_verify : HS → List Nat → (Nat → Digest → Except VerificationError Unit) →
      Except VerificationError Unit)
    (from_hex : String → Digest)
    (poseidon_control_id sha256_control_id blake2b_control_id : List String)
    (self : SegmentReceipt) (ctx : VerifierContext HS) :
    Except VerificationError Unit :=
  match ctx.suites.lookup self.hashfn with
  | none => .error .InvalidHashSuite
  | some suite =>
    zk_verify suite self.«seal»
      (check_code from_hex poseidon_control_id sha256_control_id
        blake2b_control_id)

/-- The `Receipt` trait object as seen by the session verifier: the methods
`verify_with_context`, `get_metadata` and `get_seal` of one constituent
receipt (today's sole concrete kind is `SegmentReceipt`). -/
structure Receipt (HS : Type) : Type where
  verify_with_context : VerifierContext HS → Except VerificationError Unit
  get_metadata : Except VerificationError ReceiptMetadata
  get_seal : List Nat

/-- `SessionReceipt`: ordered constituent receipts plus the claimed journal
bytes. -/
structure SessionReceipt (HS : Type) : Type where
  segments : List (Receipt HS)
  journal : List Nat

/-- `slice::split_last`: the last element and the initial run, if any. -/
def splitLast {α : Type} : List α → Option (α × List α)
  | [] => none
  | [a] => some (a, [])
  | a :: b :: rest =>
    match splitLast (b :: rest) with
    | some (last, init) => some (last, a :: init)
    | none => none

/-- The `is_journal_valid` closure of `SessionReceipt::verify_with_context`:
either the journal is empty and every recorded output word is zero, or the
SHA-256 digest of the journal agrees with the recorded output word-for-word. -/
def is_journal_valid (H : HashExt) (journal : List Nat) (output : Digest) :
    Bool :=
  (journal.isEmpty && (Digest.as_words output).all (fun x => x == 0))
    || (Digest.as_words (H.sha256 journal) == Digest.as_words output)

/-- The `for receipt in receipts` loop of
`SessionReceipt::verify_with_context`: verify each non-final receipt, check
that it continues from `prev_image_id`, require a `SystemSplit` exit, and
advance `prev_image_id` to the image of its post state; return the final
accumulated `prev_image_id`. -/
def verifySegments {HS : Type} (H : HashExt) (ctx : VerifierContext HS) :
    Digest → List (Receipt HS) → Except VerificationError Digest
  | prev_image_id, [] => .ok prev_image_id
  | prev_image_id, receipt :: rest =>
    match receipt.verify_with_context ctx with
    | .error e => .error e
    | .ok _ =>
      match receipt.get_metadata with
      | .error e => .error e
      | .ok metadata =>
        if prev_image_id ≠ metadata.pre.compute_image_id H then
          .error .ImageVerificationError
        else if metadata.exit_code ≠ .SystemSplit then
          .error .UnexpectedExitCode
        else
          verifySegments H ctx (metadata.post.compute_image_id H) rest

/-- `SessionReceipt::verify_with_context`: split off the final receipt
(empty segment list is `ReceiptFormatError`), run the continuation loop
over the non-final receipts, verify the final receipt, check continuity
into it, validate the journal against its recorded output, and reject a
final `SystemSplit` exit. -/
def SessionReceipt.verify_with_context {HS : Type} (H : HashExt)
    (self : SessionReceipt HS) (ctx : VerifierContext HS)
    (image_id : Digest) : Except VerificationError Unit :=
  match splitLast self.segments with
  | none => .error .ReceiptFormatError
  | some (final_receipt, receipts) =>
    match verifySegments H ctx image_id receipts with
    | .error e => .error e
    | .ok prev_image_id =>
      match final_receipt.verify_with_context ctx with
      | .error e => .error e
      | .ok _ =>
        match final_receipt.get_metadata with
        | .error e => .error e
        | .ok metadata =>
          if prev_image_id ≠ metadata.pre.compute_image_id H then
            .error .ImageVerificationError
          else if ¬ is_journal_valid H self.journal metadata.output then
            .error .JournalDigestMismatch
          else if metadata.exit_code = .SystemSplit then
            .error .UnexpectedExitCode
          else
            .ok ()

/-! ### Concrete fixtures used by the witness theorems -/

/-- A concrete instantiation of the external hash primitives: the
compression returns its second argument and the byte hasher is constant. -/
def wHash : HashExt := ⟨fun _ a _ => a, fun _ => Digest.zero⟩

/-- A concrete empty verifier context over the trivial hash-suite type. -/
def wCtx : VerifierContext Unit := ⟨[]⟩

/-- Concrete metadata over all-zero states with a chosen exit code. -/
def wMeta (ec : ExitCode) : ReceiptMetadata :=
  ⟨⟨0, Digest.zero⟩, ⟨0, Digest.zero⟩, ec, Digest.zero, Digest.zero⟩

/-- A concrete receipt that verifies and reports `wMeta ec`. -/
def wReceipt (ec : ExitCode) : Receipt Unit :=
  ⟨fun _ => .ok (), .ok (wMeta ec), []⟩

/-- A concrete external zero-knowledge verifier that always rejects. -/
def wZk : Unit → List Nat → (Nat → Digest → Except VerificationError Unit) →
    Except VerificationError Unit :=
  fun _ _ _ => .error (.External 0)

/-- A concrete hex decoder for control IDs: constant zero. -/
def wHex : String → Digest := fun _ => Digest.zero

/-- A concrete segment receipt naming the sha-256 suite. -/
def wSeg : SegmentReceipt := ⟨[], 0, "sha-256"⟩

/-- A concrete context registering only the sha-256 suite. -/
def wCtxSha : VerifierContext Unit := ⟨[("sha-256", ())]⟩

/-- A concrete public-output buffer that decodes successfully. -/
def wBuf : OutBuffer :=
  ⟨.ok (List.replicate 32 0), .ok 100, .ok (List.replicate 32 0), .ok 104,
   .ok (List.replicate 32 0), .ok (List.replicate 32 0), 0, 0⟩

/-- A concrete one-segment session with the given final exit code. -/
def wSession1 (ec : ExitCode) : SessionReceipt Unit := ⟨[wReceipt ec], []⟩

/-- A concrete two-segment session: a split followed by a halt. -/
def wSession2 : SessionReceipt Unit :=
  ⟨[wReceipt .SystemSplit, wReceipt (.Halted 0)], []⟩

end Risc0

namespace Risc0

/-- C5: `make_exit_code` maps `(0, u) → Halted u`, `(1, u) → Paused u`,
`(2, u) → SystemSplit`, and every other `sys_exit` value to
`ReceiptFormatError`; no input ever decodes to `SessionLimit`. -/
theorem make_exit_code_mapping (user_exit : Nat) :
    ReceiptMetadata.make_exit_code 0 user_exit = .ok (.Halted user_exit)
    ∧ ReceiptMetadata.make_exit_code 1 user_exit = .ok (.Paused user_exit)
    ∧ ReceiptMetadata.make_exit_code 2 user_exit = .ok .SystemSplit
    ∧ (∀ sys_exit : Nat, 3 ≤ sys_exit →
        ReceiptMetadata.make_exit_code sys_exit user_exit
          = .error .ReceiptFormatError)
    ∧ (∀ sys_exit : Nat,
        ReceiptMetadata.make_exit_code sys_exit user_exit
          ≠ .ok .SessionLimit) := by
  refine ⟨rfl, rfl, rfl, ?_, ?_⟩
  · intro sys_exit h
    match sys_exit, h with
    | n + 3, _ => rfl
  · intro sys_exit
    match sys_exit with
    | 0 => simp [ReceiptMetadata.make_exit_code]
    | 1 => simp [ReceiptMetadata.make_exit_code]
    | 2 => simp [ReceiptMetadata.make_exit_code]
    | n + 3 => simp [ReceiptMetadata.make_exit_code]

/-- Witness for C5 at concrete inputs. -/
theorem make_exit_code_mapping_witness :
    ReceiptMetadata.make_exit_code 0 7 = .ok (.Halted 7)
    ∧ ReceiptMetadata.make_exit_code 5 7 = .error .ReceiptFormatError
    ∧ ReceiptMetadata.make_exit_code 5 7 ≠ .ok .SessionLimit :=
  ⟨(make_exit_code_mapping 7).1,
   (make_exit_code_mapping 7).2.2.2.1 5 (by decide),
   (make_exit_code_mapping 7).2.2.2.2 5⟩

/-- C10: the exit-code codec round-trips on every wire-representable value;
`get_exit_code_pairs` rejects `SessionLimit`; decoding discards the
`user_exit` word whenever `sys_exit = 2`. -/
theorem exit_code_roundtrip :
    (∀ (c : ExitCode) (s u : Nat),
      ReceiptMetadata.get_exit_code_pairs c = .ok (s, u) →
        ReceiptMetadata.make_exit_code s u = .ok c)
    ∧ ReceiptMetadata.get_exit_code_pairs .SessionLimit
        = .error .ReceiptFormatError
    ∧ (∀ u : Nat, ReceiptMetadata.make_exit_code 2 u = .ok .SystemSplit) := by
  refine ⟨?_, rfl, fun _ => rfl⟩
  intro c s u h
  cases c with
  | SystemSplit =>
    simp only [ReceiptMetadata.get_exit_code_pairs, Except.ok.injEq,
      Prod.mk.injEq] at h
    obtain ⟨hs, hu⟩ := h
    subst hs; rfl
  | SessionLimit =>
    simp [ReceiptMetadata.get_exit_code_pairs] at h
  | Paused v =>
    simp only [ReceiptMetadata.get_exit_code_pairs, Except.ok.injEq,
      Prod.mk.injEq] at h
    obtain ⟨hs, hu⟩ := h
    subst hs; subst hu; rfl
  | Halted v =>
    simp only [ReceiptMetadata.get_exit_code_pairs, Except.ok.injEq,
      Prod.mk.injEq] at h
    obtain ⟨hs, hu⟩ := h
    subst hs; subst hu; rfl

/-- Witness for C10 at concrete inputs. -/
theorem exit_code_roundtrip_witness :
    ReceiptMetadata.make_exit_code 1 9 = .ok (.Paused 9)
    ∧ ReceiptMetadata.make_exit_code 2 42 = .ok .SystemSplit :=
  ⟨exit_code_roundtrip.1 (.Paused 9) 1 9 rfl,
   exit_code_roundtrip.2.2 42⟩

/-- C9: `compute_image_id` applies the two-block compression with the fixed
SHA-256 initialization vector to the merkle root and a second block whose
first word is `pc` and whose other words are zero; it is deterministic. -/
theorem compute_image_id_spec (H : HashExt) (merkle_root : Digest) (pc : Nat) :
    (∃ block2 : Digest,
      block2 ⟨0, by omega⟩ = pc
      ∧ (∀ i : Fin 8, i.val ≠ 0 → block2 i = 0)
      ∧ compute_image_id H merkle_root pc
          = H.compress SHA256_INIT merkle_root block2)
    ∧ (∀ (root' : Digest) (pc' : Nat), merkle_root = root' → pc = pc' →
        compute_image_id H merkle_root pc = compute_image_id H root' pc') := by
  refine ⟨⟨fun i => if i.val = 0 then pc else 0, rfl, ?_, rfl⟩, ?_⟩
  · intro i hi
    simp [hi]
  · intro root' pc' h1 h2
    subst h1; subst h2; rfl

/-- Witness for C9 at concrete inputs. -/
theorem compute_image_id_spec_witness :
    (∃ block2 : Digest,
      block2 ⟨0, by omega⟩ = 5
      ∧ (∀ i : Fin 8, i.val ≠ 0 → block2 i = 0)
      ∧ compute_image_id ⟨fun _ a _ => a, fun _ => Digest.zero⟩ Digest.zero 5
          = HashExt.compress ⟨fun _ a _ => a, fun _ => Digest.zero⟩
              SHA256_INIT Digest.zero block2)
    ∧ compute_image_id ⟨fun _ a _ => a, fun _ => Digest.zero⟩ Digest.zero 5
        = compute_image_id ⟨fun _ a _ => a, fun _ => Digest.zero⟩
            Digest.zero 5 :=
  ⟨(compute_image_id_spec ⟨fun _ a _ => a, fun _ => Digest.zero⟩
      Digest.zero 5).1,
   (compute_image_id_spec ⟨fun _ a _ => a, fun _ => Digest.zero⟩
      Digest.zero 5).2 Digest.zero 5 rfl rfl⟩

/-- C6: the metadata decoder subtracts one machine word from the raw post
pc; a raw post pc below `WORD_SIZE` makes decoding fail with
`ReceiptFormatError`, and on success the decoded post pc is the raw value
minus `WORD_SIZE` while the pre pc is taken unadjusted. -/
theorem decode_post_pc_adjustment (buf : OutBuffer) (raw_pre raw_post : Nat)
    (hpre : buf.pre_pc = .ok raw_pre) (hpost : buf.post_pc = .ok raw_post) :
    (raw_post < WORD_SIZE →
      ReceiptMetadata.decode_from_io buf = .error .ReceiptFormatError)
    ∧ (∀ m : ReceiptMetadata, ReceiptMetadata.decode_from_io buf = .ok m →
        m.post.pc = raw_post - WORD_SIZE ∧ WORD_SIZE ≤ raw_post
          ∧ m.pre.pc = raw_pre) := by
  obtain ⟨pib, ppc, poib, popc, inb, oub, se, ue⟩ := buf
  dsimp only at hpre hpost
  subst hpre; subst hpost
  constructor
  · intro hlt
    cases pib with
    | error e =>
      simp [ReceiptMetadata.decode_from_io, SystemState.decode_from_io]
    | ok bytes =>
      cases h1 : Digest.try_from bytes with
      | none =>
        simp [ReceiptMetadata.decode_from_io, SystemState.decode_from_io, h1]
      | some root =>
        cases poib with
        | error e =>
          simp [ReceiptMetadata.decode_from_io, SystemState.decode_from_io,
            h1]
        | ok bytes2 =>
          cases h2 : Digest.try_from bytes2 with
          | none =>
            simp [ReceiptMetadata.decode_from_io, SystemState.decode_from_io,
              h1, h2]
          | some root2 =>
            simp [ReceiptMetadata.decode_from_io, SystemState.decode_from_io,
              h1, h2, hlt]
  · intro m hm
    cases pib with
    | error e =>
      simp [ReceiptMetadata.decode_from_io, SystemState.decode_from_io] at hm
    | ok bytes =>
      cases h1 : Digest.try_from bytes with
      | none =>
        simp [ReceiptMetadata.decode_from_io, SystemState.decode_from_io,
          h1] at hm
      | some root =>
        cases poib with
        | error e =>
          simp [ReceiptMetadata.decode_from_io, SystemState.decode_from_io,
            h1] at hm
        | ok bytes2 =>
          cases h2 : Digest.try_from bytes2 with
          | none =>
            simp [ReceiptMetadata.decode_from_io, SystemState.decode_from_io,
              h1, h2] at hm
          | some root2 =>
            by_cases hlt : raw_post < WORD_SIZE
            · simp [ReceiptMetadata.decode_from_io,
                SystemState.decode_from_io, h1, h2, hlt] at hm
            · cases inb with
              | error e =>
                simp [ReceiptMetadata.decode_from_io,
                  SystemState.decode_from_io, h1, h2, hlt] at hm
              | ok ibytes =>
                cases h3 : Digest.try_from ibytes with
                | none =>
                  simp [ReceiptMetadata.decode_from_io,
                    SystemState.decode_from_io, h1, h2, h3, hlt] at hm
                | some input =>
                  cases oub with
                  | error e =>
                    simp [ReceiptMetadata.decode_from_io,
                      SystemState.decode_from_io, h1, h2, h3, hlt] at hm
                  | ok obytes =>
                    cases h4 : Digest.try_from obytes with
                    | none =>
                      simp [ReceiptMetadata.decode_from_io,
                        SystemState.decode_from_io, h1, h2, h3, h4, hlt] at hm
                    | some output =>
                      cases hec : ReceiptMetadata.make_exit_code se ue with
                      | error e =>
                        simp [ReceiptMetadata.decode_from_io,
                          SystemState.decode_from_io, h1, h2, h3, h4, hlt,
                          hec] at hm
                      | ok ec =>
                        have hm2 :
                            (⟨⟨raw_pre, root⟩,
                              ⟨raw_post - WORD_SIZE, root2⟩,
                              ec, input, output⟩ : ReceiptMetadata) = m := by
                          simpa [ReceiptMetadata.decode_from_io,
                            SystemState.decode_from_io, h1, h2, h3, h4, hlt,
                            hec] using hm
                        subst hm2
                        exact ⟨rfl, by omega, rfl⟩

/-- Witness for C6 at a concrete buffer. -/
theorem decode_post_pc_adjustment_witness :
    (104 < WORD_SIZE →
      ReceiptMetadata.decode_from_io wBuf = .error .ReceiptFormatError)
    ∧ (∀ m : ReceiptMetadata, ReceiptMetadata.decode_from_io wBuf = .ok m →
        m.post.pc = 104 - WORD_SIZE ∧ WORD_SIZE ≤ 104 ∧ m.pre.pc = 100) :=
  decode_post_pc_adjustment wBuf 100 104 rfl rfl

/-- C7: segment verification resolves the named hash suite before anything
else: an unregistered `hashfn` yields `InvalidHashSuite` whatever the
external verifier would do, and a registered one hands the resolved suite,
the raw seal and the control-ID check to the external verifier. -/
theorem segment_verify_hash_suite {HS : Type} (self : SegmentReceipt)
    (ctx : VerifierContext HS) :
    (ctx.suites.lookup self.hashfn = none →
      ∀ (zk_verify : HS → List Nat →
          (Nat → Digest → Except VerificationError Unit) →
          Except VerificationError Unit)
        (from_hex : String → Digest) (P S B : List String),
        SegmentReceipt.verify_with_context zk_verify from_hex P S B self ctx
          = .error .InvalidHashSuite)
    ∧ (∀ suite : HS, ctx.suites.lookup self.hashfn = some suite →
      ∀ (zk_verify : HS → List Nat →
          (Nat → Digest → Except VerificationError Unit) →
          Except VerificationError Unit)
        (from_hex : String → Digest) (P S B : List String),
        SegmentReceipt.verify_with_context zk_verify from_hex P S B self ctx
          = zk_verify suite self.«seal» (check_code from_hex P S B)) := by
  constructor
  · intro h zk_verify from_hex P S B
    unfold SegmentReceipt.verify_with_context
    rw [h]
  · intro suite h zk_verify from_hex P S B
    unfold SegmentReceipt.verify_with_context
    rw [h]

/-- Witness for C7: a missing and a present hash-suite name. -/
theorem segment_verify_hash_suite_witness :
    (SegmentReceipt.verify_with_context wZk wHex [] [] [] wSeg wCtx
      = .error .InvalidHashSuite)
    ∧ (SegmentReceipt.verify_with_context wZk wHex [] [] [] wSeg wCtxSha
      = wZk () [] (check_code wHex [] [] [])) :=
  ⟨(segment_verify_hash_suite wSeg wCtx).1 rfl wZk wHex [] [] [],
   (segment_verify_hash_suite wSeg wCtxSha).2 () rfl wZk wHex [] [] []⟩

/-- C8: the control-ID check succeeds exactly on digests in the union of
the three allow-lists, and fails with `ControlVerificationError` exactly on
digests outside that union. -/
theorem check_code_allowlist (from_hex : String → Digest) (P S B : List String)
    (po2 : Nat) (control_id : Digest) :
    (check_code from_hex P S B po2 control_id = .ok ()
      ↔ control_id ∈ (P ++ S ++ B).map from_hex)
    ∧ (check_code from_hex P S B po2 control_id
        = .error .ControlVerificationError
      ↔ control_id ∉ (P ++ S ++ B).map from_hex) := by
  unfold check_code
  cases h : (P ++ S ++ B).find? (fun x => decide (from_hex x = control_id)) with
  | none =>
    have hnot : control_id ∉ (P ++ S ++ B).map from_hex := by
      intro hc
      rcases List.mem_map.mp hc with ⟨x, hx, hfx⟩
      have h2 := List.find?_eq_none.mp h x hx
      simp [hfx] at h2
    refine ⟨⟨fun hc => ?_, fun hc => absurd hc hnot⟩,
            ⟨fun _ => hnot, fun _ => rfl⟩⟩
    simp at hc
  | some a =>
    have hp := List.find?_some h
    simp only [decide_eq_true_eq] at hp
    have hfa : from_hex a = control_id := hp
    have hmem : control_id ∈ (P ++ S ++ B).map from_hex :=
      List.mem_map.mpr ⟨a, List.mem_of_find?_eq_some h, hfa⟩
    refine ⟨⟨fun _ => hmem, fun _ => rfl⟩,
            ⟨fun hc => ?_, fun hc => absurd hmem hc⟩⟩
    simp at hc

/-- C4: a session receipt with no segments fails with
`ReceiptFormatError`, whatever the context, expected image ID, journal
bytes or hash primitives. -/
theorem session_empty_segments {HS : Type} (H : HashExt)
    (s : SessionReceipt HS) (ctx : VerifierContext HS) (image_id : Digest)
    (h : s.segments = []) :
    s.verify_with_context H ctx image_id = .error .ReceiptFormatError := by
  unfold SessionReceipt.verify_with_context
  rw [h]
  rfl

/-- Witness for C4: the concrete empty session. -/
theorem session_empty_segments_witness :
    SessionReceipt.verify_with_context wHash ⟨[], [1, 2, 3]⟩ wCtx Digest.zero
      = .error .ReceiptFormatError :=
  session_empty_segments wHash ⟨[], [1, 2, 3]⟩ wCtx Digest.zero rfl

/-! ### Helper lemmas about `splitLast`, digests and the journal check -/

/-- `splitLast` really splits off the last element. -/
theorem splitLast_eq {α : Type} :
    ∀ (xs : List α) (l : α) (init : List α),
      splitLast xs = some (l, init) → xs = init ++ [l]
  | [], l, init => by intro h; cases h
  | [a], l, init => by
    intro h
    have h' : some (a, ([] : List α)) = some (l, init) := h
    injection h' with h''
    injection h'' with h1 h2
    subst h1; subst h2
    rfl
  | a :: b :: rest, l, init => by
    intro h
    unfold splitLast at h
    cases hs : splitLast (b :: rest) with
    | none => rw [hs] at h; cases h
    | some p =>
      obtain ⟨last, ini⟩ := p
      rw [hs] at h
      have h' : some (last, a :: ini) = some (l, init) := h
      injection h' with h''
      injection h'' with h1 h2
      subst h1; subst h2
      have := splitLast_eq (b :: rest) last ini hs
      rw [List.cons_append, ← this]

/-- Word views of digests are injective. -/
theorem Digest.as_words_inj {a b : Digest}
    (h : Digest.as_words a = Digest.as_words b) : a = b := by
  funext i
  unfold Digest.as_words at h
  exact List.map_eq_map_iff.mp h i (List.mem_finRange i)

/-- All words of a digest are zero exactly when it is the zero digest. -/
theorem Digest.as_words_all_zero {d : Digest} :
    ((Digest.as_words d).all (fun x => x == 0) = true) ↔ d = Digest.zero := by
  constructor
  · intro h
    funext i
    have hmem : d i ∈ Digest.as_words d := by
      unfold Digest.as_words
      exact List.mem_map.mpr ⟨i, List.mem_finRange i, rfl⟩
    have := List.all_eq_true.mp h (d i) hmem
    simpa using this
  · intro h
    subst h
    apply List.all_eq_true.mpr
    intro x hx
    unfold Digest.as_words at hx
    rcases List.mem_map.mp hx with ⟨i, -, rfl⟩
    rfl

/-- The journal-check closure accepts exactly the empty journal against an
all-zero output, or a journal whose SHA-256 digest is the output. -/
theorem is_journal_valid_iff (H : HashExt) (journal : List Nat)
    (output : Digest) :
    is_journal_valid H journal output = true
      ↔ ((journal = [] ∧ output = Digest.zero)
          ∨ H.sha256 journal = output) := by
  unfold is_journal_valid
  rw [Bool.or_eq_true, Bool.and_eq_true]
  constructor
  · rintro (⟨he, hz⟩ | hbeq)
    · exact Or.inl ⟨List.isEmpty_iff.mp he, Digest.as_words_all_zero.mp hz⟩
    · exact Or.inr (Digest.as_words_inj (by simpa using hbeq))
  · rintro (⟨he, hz⟩ | heq)
    · exact Or.inl ⟨List.isEmpty_iff.mpr he, Digest.as_words_all_zero.mpr hz⟩
    · exact Or.inr (by simp [heq])

/-- A `Forall₂` yields a related element for every member of the left
list. -/
theorem Forall₂_exists_of_mem {α β : Type} {R : α → β → Prop}
    {l₁ : List α} {l₂ : List β} (h : List.Forall₂ R l₁ l₂) :
    ∀ a ∈ l₁, ∃ b, R a b := by
  induction h with
  | nil => intro a ha; cases ha
  | cons hr _ ih =>
    intro a ha
    cases ha with
    | head => exact ⟨_, hr⟩
    | tail _ hmem => exact ih a hmem

/-- `Forall₂` respects appending. -/
theorem Forall₂_append {α β : Type} {R : α → β → Prop}
    {l₁ l₃ : List α} {l₂ l₄ : List β} (h : List.Forall₂ R l₁ l₂)
    (h' : List.Forall₂ R l₃ l₄) : List.Forall₂ R (l₁ ++ l₃) (l₂ ++ l₄) := by
  induction h with
  | nil => simpa using h'
  | cons hr _ ih => exact List.Forall₂.cons hr ih

/-! ### The continuation loop -/

/-- Full characterization of a successful run of the continuation loop:
every receipt verified and decoded, every decoded exit code was
`SystemSplit`, the decoded metadata chain adjacent image IDs, the first
pre-image matches the incoming `prev` and the returned digest is the image
of the last post state (or `prev` itself for an empty run). -/
theorem verifySegments_ok_spec {HS : Type} (H : HashExt)
    (ctx : VerifierContext HS) :
    ∀ (rs : List (Receipt HS)) (prev out : Digest),
      verifySegments H ctx prev rs = .ok out →
      ∃ ms : List ReceiptMetadata,
        List.Forall₂ (fun (r : Receipt HS) (m : ReceiptMetadata) =>
          r.verify_with_context ctx = .ok () ∧ r.get_metadata = .ok m
            ∧ m.exit_code = .SystemSplit) rs ms
        ∧ List.Chain' (fun a b : ReceiptMetadata =>
            a.post.compute_image_id H = b.pre.compute_image_id H) ms
        ∧ (∀ m₀ ∈ ms.head?, prev = m₀.pre.compute_image_id H)
        ∧ ((ms = [] ∧ out = prev)
            ∨ (∃ mₗ ∈ ms.getLast?, out = mₗ.post.compute_image_id H)) := by
  intro rs
  induction rs with
  | nil =>
    intro prev out h
    have h' : Except.ok prev = Except.ok out := h
    injection h' with h''
    subst h''
    exact ⟨[], .nil, List.chain'_nil, by simp, Or.inl ⟨rfl, rfl⟩⟩
  | cons r rest ih =>
    intro prev out h
    unfold verifySegments at h
    cases hv : r.verify_with_context ctx with
    | error e => simp only [hv] at h; exact Except.noConfusion h
    | ok u =>
      cases hm : r.get_metadata with
      | error e => simp only [hv, hm] at h; exact Except.noConfusion h
      | ok m =>
        simp only [hv, hm] at h
        by_cases himg : prev = m.pre.compute_image_id H
        · rw [if_neg (show ¬ (prev ≠ m.pre.compute_image_id H) from
            not_not_intro himg)] at h
          by_cases hec : m.exit_code = ExitCode.SystemSplit
          · rw [if_neg (show ¬ (m.exit_code ≠ ExitCode.SystemSplit) from
              not_not_intro hec)] at h
            obtain ⟨ms, hall, hchain, hhead, hlast⟩ :=
              ih (m.post.compute_image_id H) out h
            refine ⟨m :: ms,
              .cons ⟨by cases u; exact hv, hm, hec⟩ hall, ?_, ?_, ?_⟩
            · cases ms with
              | nil => exact List.chain'_singleton m
              | cons m' ms' =>
                exact List.chain'_cons.mpr ⟨hhead m' rfl, hchain⟩
            · intro m₀ hm₀
              simp only [List.head?_cons, Option.mem_def,
                Option.some.injEq] at hm₀
              subst hm₀
              exact himg
            · rcases hlast with ⟨hnil, hout⟩ | ⟨mₗ, hmem, hout⟩
              · subst hnil
                exact Or.inr ⟨m, by simp, hout⟩
              · cases ms with
                | nil => simp at hmem
                | cons m' ms' =>
                  exact Or.inr ⟨mₗ,
                    by simpa [List.getLast?_cons_cons] using hmem, hout⟩
          · rw [if_pos (show m.exit_code ≠ ExitCode.SystemSplit from
              hec)] at h
            cases h
        · rw [if_pos (show prev ≠ m.pre.compute_image_id H from himg)] at h
          cases h

/-- An interior receipt whose decoded pre-image does not match the
accumulated image ID makes the loop fail with `ImageVerificationError`. -/
theorem verifySegments_image_mismatch {HS : Type} (H : HashExt)
    (ctx : VerifierContext HS) (r : Receipt HS) (rest : List (Receipt HS))
    (prev : Digest) (m : ReceiptMetadata)
    (hv : r.verify_with_context ctx = .ok ())
    (hm : r.get_metadata = .ok m)
    (hne : prev ≠ m.pre.compute_image_id H) :
    verifySegments H ctx prev (r :: rest)
      = .error .ImageVerificationError := by
  unfold verifySegments
  simp only [hv, hm]
  rw [if_pos hne]

/-- An interior receipt whose decoded exit code is not `SystemSplit` makes
the loop fail with `UnexpectedExitCode`. -/
theorem verifySegments_exit_mismatch {HS : Type} (H : HashExt)
    (ctx : VerifierContext HS) (r : Receipt HS) (rest : List (Receipt HS))
    (prev : Digest) (m : ReceiptMetadata)
    (hv : r.verify_with_context ctx = .ok ())
    (hm : r.get_metadata = .ok m)
    (himg : prev = m.pre.compute_image_id H)
    (hec : m.exit_code ≠ .SystemSplit) :
    verifySegments H ctx prev (r :: rest) = .error .UnexpectedExitCode := by
  unfold verifySegments
  simp only [hv, hm]
  rw [if_neg (show ¬ (prev ≠ m.pre.compute_image_id H) from
    not_not_intro himg), if_pos hec]

/-- Once the loop, the final receipt's verification and its decoding have
succeeded and the continuity check into the final segment holds, the
session verdict is decided by the journal check followed by the final
exit-code check. -/
theorem session_verify_reach {HS : Type} (H : HashExt)
    (s : SessionReceipt HS) (ctx : VerifierContext HS)
    (image_id prev : Digest) (fr : Receipt HS) (rs : List (Receipt HS))
    (mf : ReceiptMetadata)
    (hsplit : splitLast s.segments = some (fr, rs))
    (hloop : verifySegments H ctx image_id rs = .ok prev)
    (hv : fr.verify_with_context ctx = .ok ())
    (hm : fr.get_metadata = .ok mf)
    (himg : prev = mf.pre.compute_image_id H) :
    s.verify_with_context H ctx image_id
      = if ¬ is_journal_valid H s.journal mf.output then
          .error .JournalDigestMismatch
        else if mf.exit_code = .SystemSplit then .error .UnexpectedExitCode
        else .ok () := by
  unfold SessionReceipt.verify_with_context
  simp only [hsplit, hloop, hv, hm]
  rw [if_neg (show ¬ (prev ≠ mf.pre.compute_image_id H) from
    not_not_intro himg)]

/-- Inversion of a successful session verification: the split succeeded,
the loop succeeded, the final receipt verified and decoded, continuity
into it held, the journal was valid and the final exit was not a split. -/
theorem session_verify_ok_inv {HS : Type} (H : HashExt)
    (s : SessionReceipt HS) (ctx : VerifierContext HS) (image_id : Digest)
    (hok : s.verify_with_context H ctx image_id = .ok ()) :
    ∃ (fr : Receipt HS) (rs : List (Receipt HS)) (prev : Digest)
      (mf : ReceiptMetadata),
      splitLast s.segments = some (fr, rs)
      ∧ verifySegments H ctx image_id rs = .ok prev
      ∧ fr.verify_with_context ctx = .ok ()
      ∧ fr.get_metadata = .ok mf
      ∧ prev = mf.pre.compute_image_id H
      ∧ is_journal_valid H s.journal mf.output = true
      ∧ mf.exit_code ≠ .SystemSplit := by
  unfold SessionReceipt.verify_with_context at hok
  cases hsplit : splitLast s.segments with
  | none =>
    simp only [hsplit] at hok
    exact Except.noConfusion hok
  | some p =>
    obtain ⟨fr, rs⟩ := p
    cases hloop : verifySegments H ctx image_id rs with
    | error e =>
      simp only [hsplit, hloop] at hok
      exact Except.noConfusion hok
    | ok prev =>
      cases hv : fr.verify_with_context ctx with
      | error e =>
        simp only [hsplit, hloop, hv] at hok
        exact Except.noConfusion hok
      | ok u =>
        cases hm : fr.get_metadata with
        | error e =>
          simp only [hsplit, hloop, hv, hm] at hok
          exact Except.noConfusion hok
        | ok mf =>
          simp only [hsplit, hloop, hv, hm] at hok
          by_cases himg : prev = mf.pre.compute_image_id H
          · rw [if_neg (show ¬ (prev ≠ mf.pre.compute_image_id H) from
              not_not_intro himg)] at hok
            by_cases hj : is_journal_valid H s.journal mf.output
            · rw [if_neg (not_not_intro hj)] at hok
              by_cases hec : mf.exit_code = ExitCode.SystemSplit
              · rw [if_pos hec] at hok; cases hok
              · exact ⟨fr, rs, prev, mf, rfl, hloop,
                  by cases u; exact hv, hm, himg, hj, hec⟩
            · rw [if_pos hj] at hok; cases hok
          · rw [if_pos (show prev ≠ mf.pre.compute_image_id H from
              himg)] at hok
            cases hok

/-- C1: the continuation chain. A pre-image mismatch at any interior
segment fails with `ImageVerificationError`, a pre-image mismatch at the
final segment fails with `ImageVerificationError` as well, and a
successful session yields decoded metadata for every segment whose first
pre-image is the expected image ID, with every adjacent pair satisfying
`compute_image_id(post) = compute_image_id(pre)`. -/
theorem session_continuity {HS : Type} (H : HashExt)
    (s : SessionReceipt HS) (ctx : VerifierContext HS) (image_id : Digest) :
    (∀ (r : Receipt HS) (rest : List (Receipt HS)) (prev : Digest)
        (m : ReceiptMetadata),
      r.verify_with_context ctx = .ok () → r.get_metadata = .ok m →
      prev ≠ m.pre.compute_image_id H →
      verifySegments H ctx prev (r :: rest)
        = .error .ImageVerificationError)
    ∧ (∀ (prev : Digest) (fr : Receipt HS) (rs : List (Receipt HS))
        (mf : ReceiptMetadata),
      splitLast s.segments = some (fr, rs) →
      verifySegments H ctx image_id rs = .ok prev →
      fr.verify_with_context ctx = .ok () →
      fr.get_metadata = .ok mf →
      prev ≠ mf.pre.compute_image_id H →
      s.verify_with_context H ctx image_id
        = .error .ImageVerificationError)
    ∧ (s.verify_with_context H ctx image_id = .ok () →
      ∃ ms : List ReceiptMetadata,
        List.Forall₂ (fun (r : Receipt HS) (m : ReceiptMetadata) =>
          r.get_metadata = .ok m) s.segments ms
        ∧ (∀ m₀ ∈ ms.head?, image_id = m₀.pre.compute_image_id H)
        ∧ List.Chain' (fun a b : ReceiptMetadata =>
            a.post.compute_image_id H = b.pre.compute_image_id H) ms) := by
  refine ⟨?_, ?_, ?_⟩
  · intro r rest prev m hv hm hne
    exact verifySegments_image_mismatch H ctx r rest prev m hv hm hne
  · intro prev fr rs mf hsplit hloop hv hm hne
    unfold SessionReceipt.verify_with_context
    simp only [hsplit, hloop, hv, hm]
    rw [if_pos (show prev ≠ mf.pre.compute_image_id H from hne)]
  · intro hok
    obtain ⟨fr, rs, prev, mf, hsplit, hloop, hv, hm, himg, hj, hec⟩ :=
      session_verify_ok_inv H s ctx image_id hok
    obtain ⟨ms, hall, hchain, hhead, hlast⟩ :=
      verifySegments_ok_spec H ctx rs image_id prev hloop
    have hseg : s.segments = rs ++ [fr] := splitLast_eq s.segments fr rs hsplit
    refine ⟨ms ++ [mf], ?_, ?_, ?_⟩
    · rw [hseg]
      exact Forall₂_append
        (List.Forall₂.imp (fun a b hab => hab.2.1) hall)
        (List.Forall₂.cons hm List.Forall₂.nil)
    · intro m₀ hm₀
      cases ms with
      | nil =>
        rcases hlast with ⟨-, hout⟩ | ⟨mₗ, hmem, -⟩
        · simp only [List.nil_append, List.head?_cons, Option.mem_def,
            Option.some.injEq] at hm₀
          subst hm₀
          rw [← hout]
          exact himg
        · simp at hmem
      | cons m' ms' =>
        simp only [List.cons_append, List.head?_cons, Option.mem_def,
          Option.some.injEq] at hm₀
        exact hm₀ ▸ hhead m' rfl
    · apply List.chain'_append.mpr
      refine ⟨hchain, List.chain'_singleton mf, ?_⟩
      intro x hx y hy
      simp only [List.head?_cons, Option.mem_def, Option.some.injEq] at hy
      subst hy
      rcases hlast with ⟨hnil, -⟩ | ⟨mₗ, hmem, hout⟩
      · subst hnil; simp at hx
      · have hxl : x = mₗ := by
          rw [Option.mem_def] at hx hmem
          rw [hx] at hmem
          exact Option.some.inj hmem
        subst hxl
        rw [← hout]
        exact himg

/-- Witness for C1: an interior mismatch fails, a single-segment session
against the wrong expected image ID fails at the final check, and the
concrete two-segment session yields a full continuity chain. -/
theorem session_continuity_witness :
    (verifySegments wHash wCtx (fun _ => 1) [wReceipt (.Halted 0)]
      = .error .ImageVerificationError)
    ∧ ((wSession1 (.Halted 0)).verify_with_context wHash wCtx (fun _ => 1)
      = .error .ImageVerificationError)
    ∧ (∃ ms : List ReceiptMetadata,
        List.Forall₂ (fun (r : Receipt Unit) (m : ReceiptMetadata) =>
          r.get_metadata = .ok m) wSession2.segments ms
        ∧ (∀ m₀ ∈ ms.head?, Digest.zero = m₀.pre.compute_image_id wHash)
        ∧ List.Chain' (fun a b : ReceiptMetadata =>
            a.post.compute_image_id wHash = b.pre.compute_image_id wHash)
          ms) :=
  ⟨(session_continuity wHash wSession2 wCtx Digest.zero).1
      (wReceipt (.Halted 0)) [] (fun _ => 1) (wMeta (.Halted 0)) rfl rfl
      (by decide),
   (session_continuity wHash (wSession1 (.Halted 0)) wCtx
      (fun _ => 1)).2.1 (fun _ => 1) (wReceipt (.Halted 0)) []
      (wMeta (.Halted 0)) rfl rfl rfl rfl (by decide),
   (session_continuity wHash wSession2 wCtx Digest.zero).2.2 (by rfl)⟩

/-- C2: the positional exit-code policy. An interior segment that did not
exit with `SystemSplit` fails with `UnexpectedExitCode`; a final segment
that did exit with `SystemSplit` fails with `UnexpectedExitCode`; and a
successful verification means every interior segment split and the final
one did not. -/
theorem session_exit_code_policy {HS : Type} (H : HashExt)
    (s : SessionReceipt HS) (ctx : VerifierContext HS) (image_id : Digest) :
    (∀ (r : Receipt HS) (rest : List (Receipt HS)) (prev : Digest)
        (m : ReceiptMetadata),
      r.verify_with_context ctx = .ok () → r.get_metadata = .ok m →
      prev = m.pre.compute_image_id H → m.exit_code ≠ .SystemSplit →
      verifySegments H ctx prev (r :: rest) = .error .UnexpectedExitCode)
    ∧ (∀ (prev : Digest) (fr : Receipt HS) (rs : List (Receipt HS))
        (mf : ReceiptMetadata),
      splitLast s.segments = some (fr, rs) →
      verifySegments H ctx image_id rs = .ok prev →
      fr.verify_with_context ctx = .ok () → fr.get_metadata = .ok mf →
      prev = mf.pre.compute_image_id H →
      is_journal_valid H s.journal mf.output = true →
      mf.exit_code = .SystemSplit →
      s.verify_with_context H ctx image_id = .error .UnexpectedExitCode)
    ∧ (s.verify_with_context H ctx image_id = .ok () →
      ∀ (fr : Receipt HS) (rs : List (Receipt HS)),
        splitLast s.segments = some (fr, rs) →
        (∀ r ∈ rs, ∃ m : ReceiptMetadata,
          r.get_metadata = .ok m ∧ m.exit_code = .SystemSplit)
        ∧ ∃ mf : ReceiptMetadata,
            fr.get_metadata = .ok mf ∧ mf.exit_code ≠ .SystemSplit) := by
  refine ⟨?_, ?_, ?_⟩
  · intro r rest prev m hv hm himg hec
    exact verifySegments_exit_mismatch H ctx r rest prev m hv hm himg hec
  · intro prev fr rs mf hsplit hloop hv hm himg hj hec
    rw [session_verify_reach H s ctx image_id prev fr rs mf hsplit hloop
      hv hm himg]
    rw [if_neg (not_not_intro hj), if_pos hec]
  · intro hok fr rs hsplit
    obtain ⟨fr', rs', prev, mf, hsplit', hloop, hv, hm, himg, hj, hec⟩ :=
      session_verify_ok_inv H s ctx image_id hok
    rw [hsplit] at hsplit'
    have h12 := Option.some.inj hsplit'
    injection h12 with ha hb
    subst ha; subst hb
    constructor
    · intro r hr
      obtain ⟨ms, hall, -, -, -⟩ :=
        verifySegments_ok_spec H ctx rs image_id prev hloop
      obtain ⟨m, hrm⟩ := Forall₂_exists_of_mem hall r hr
      exact ⟨m, hrm.2.1, hrm.2.2⟩
    · exact ⟨mf, hm, hec⟩

/-- Witness for C2: a halted interior segment fails, a split-only session
fails, and the concrete two-segment session satisfies the policy. -/
theorem session_exit_code_policy_witness :
    (verifySegments wHash wCtx Digest.zero [wReceipt (.Halted 0)]
      = .error .UnexpectedExitCode)
    ∧ ((wSession1 .SystemSplit).verify_with_context wHash wCtx Digest.zero
      = .error .UnexpectedExitCode)
    ∧ ((∀ r ∈ [wReceipt .SystemSplit], ∃ m : ReceiptMetadata,
          r.get_metadata = .ok m ∧ m.exit_code = .SystemSplit)
        ∧ ∃ mf : ReceiptMetadata,
            (wReceipt (.Halted 0)).get_metadata = .ok mf
              ∧ mf.exit_code ≠ .SystemSplit) :=
  ⟨(session_exit_code_policy wHash wSession2 wCtx Digest.zero).1
      (wReceipt (.Halted 0)) [] Digest.zero (wMeta (.Halted 0)) rfl rfl rfl
      (by decide),
   (session_exit_code_policy wHash (wSession1 .SystemSplit) wCtx
      Digest.zero).2.1 Digest.zero (wReceipt .SystemSplit) []
      (wMeta .SystemSplit) rfl rfl rfl rfl rfl (by rfl) rfl,
   (session_exit_code_policy wHash wSession2 wCtx Digest.zero).2.2
      (by rfl) (wReceipt (.Halted 0)) [wReceipt .SystemSplit] rfl⟩

/-- C3: under the conditions in which the journal check is reached, the
session verdict is `JournalDigestMismatch` exactly when the journal is
neither empty-against-all-zero-output nor hashes to the recorded output. -/
theorem session_journal_check {HS : Type} (H : HashExt)
    (s : SessionReceipt HS) (ctx : VerifierContext HS)
    (image_id prev : Digest) (fr : Receipt HS) (rs : List (Receipt HS))
    (mf : ReceiptMetadata)
    (hsplit : splitLast s.segments = some (fr, rs))
    (hloop : verifySegments H ctx image_id rs = .ok prev)
    (hv : fr.verify_with_context ctx = .ok ())
    (hm : fr.get_metadata = .ok mf)
    (himg : prev = mf.pre.compute_image_id H) :
    s.verify_with_context H ctx image_id = .error .JournalDigestMismatch
      ↔ ¬ ((s.journal = [] ∧ mf.output = Digest.zero)
            ∨ H.sha256 s.journal = mf.output) := by
  rw [session_verify_reach H s ctx image_id prev fr rs mf hsplit hloop hv
    hm himg]
  by_cases hj : is_journal_valid H s.journal mf.output
  · rw [if_neg (not_not_intro hj)]
    have hcond := (is_journal_valid_iff H s.journal mf.output).mp hj
    constructor
    · intro hcontra
      by_cases hec : mf.exit_code = ExitCode.SystemSplit
      · rw [if_pos hec] at hcontra; cases hcontra
      · rw [if_neg hec] at hcontra; cases hcontra
    · intro hc
      exact absurd hcond hc
  · rw [if_pos hj]
    constructor
    · intro _ hcond
      exact hj ((is_journal_valid_iff H s.journal mf.output).mpr hcond)
    · intro _
      rfl

/-- Witness for C3: the concrete one-segment halted session with empty
journal and all-zero output. -/
theorem session_journal_check_witness :
    ((wSession1 (.Halted 0)).verify_with_context wHash wCtx Digest.zero
        = .error .JournalDigestMismatch
      ↔ ¬ (((wSession1 (.Halted 0)).journal = []
              ∧ (wMeta (.Halted 0)).output = Digest.zero)
            ∨ wHash.sha256 (wSession1 (.Halted 0)).journal
                = (wMeta (.Halted 0)).output)) :=
  session_journal_check wHash (wSession1 (.Halted 0)) wCtx Digest.zero
    Digest.zero (wReceipt (.Halted 0)) [] (wMeta (.Halted 0)) rfl rfl rfl
    rfl rfl

end Risc0
